import Mathlib

/-!
Shallow embedding of `ncov/parser/qc.py` (jts/ncov_parser).

A text file is modelled as the list of lines yielded by Python's file
iteration (each line normally carries its trailing newline).  Python string
operations used by the module are modelled at the character-list level so
that every definition evaluates by kernel reduction.  Python exceptions are
modelled with `Except Err`; the exception raised at each site is mapped to
the error kind of the module's documented taxonomy: index-out-of-range on a
short row and the unbound-variable failure of a file with no data line
become `FormatError`, `statistics.mean` on an empty list becomes
`EmptyInputError`, and a missing dictionary key in the metadata join
becomes `MissingKeyError`.
-/

/-- Error kinds raised by the qc module. -/
inductive Err where
  | FormatError
  | EmptyInputError
  | MissingKeyError
deriving DecidableEq, Repr

deriving instance DecidableEq for Except

/-- Python default whitespace characters stripped by `str.strip()`. -/
def pyWs (c : Char) : Bool :=
  c == ' ' || c == '\t' || c == '\n' || c == '\r' || c == '\x0b' || c == '\x0c'

/-- Whether `pre` is a prefix of `s`, on character lists (models `re.match("^pre", s)`). -/
def charsStart : List Char → List Char → Bool
  | [], _ => true
  | _ :: _, [] => false
  | p :: ps, c :: cs => p == c && charsStart ps cs

/-- Models `re.match("^pre", s)` used as a boolean: literal-prefix match. -/
def pyStartsWith (s pre : String) : Bool :=
  charsStart pre.data s.data

/-- Split a character list on a single separator character; models Python
`str.split(sep)` for a one-character separator (no collapsing, `"" ↦ [""]`). -/
def splitOnChar (sep : Char) : List Char → List (List Char)
  | [] => [[]]
  | c :: cs =>
    let r := splitOnChar sep cs
    if c == sep then [] :: r
    else
      match r with
      | [] => [[c]]
      | g :: gs => (c :: g) :: gs

/-- Python `s.split(sep)` for a one-character separator. -/
def pySplitChar (sep : Char) (s : String) : List String :=
  (splitOnChar sep s.data).map (fun g => ⟨g⟩)

/-- Python `str.strip()` with default whitespace. -/
def pyStrip (s : String) : String :=
  ⟨((s.data.dropWhile pyWs).reverse.dropWhile pyWs).reverse⟩

/-- Python `str.rstrip()` with default whitespace. -/
def pyRstrip (s : String) : String :=
  ⟨(s.data.reverse.dropWhile pyWs).reverse⟩

/-- Python `str.upper()` (ASCII range, as used on nucleotide codes). -/
def pyUpper (s : String) : String :=
  ⟨s.data.map Char.toUpper⟩

/-- Python `str.lower()` (ASCII range). -/
def pyLower (s : String) : String :=
  ⟨s.data.map Char.toLower⟩

/-- Python `len(s)`: number of characters. -/
def pyLen (s : String) : Nat :=
  s.data.length

/-- Embeds `is_variant_n`: after upper-casing, `re.search('[Nn]', variant)` finds an
`N` (or `n`) anywhere in the string. -/
def is_variant_n (variant : String) : Bool :=
  (pyUpper variant).data.any (fun c => c == 'N' || c == 'n')

/-- The IUPAC ambiguity codes of `is_variant_iupac` (`N` excluded). -/
def iupacCodes : List Char :=
  ['R', 'Y', 'S', 'W', 'K', 'M', 'B', 'D', 'H', 'V']

/-- Embeds `is_variant_iupac`: after upper-casing, `re.search('[RYSWKMBDHV]', variant)`. -/
def is_variant_iupac (variant : String) : Bool :=
  (pyUpper variant).data.any (fun c => iupacCodes.contains c)

/-- Embeds `is_indel`: the variant text has length greater than one. -/
def is_indel (variant : String) : Bool :=
  1 < pyLen variant

/-- The five counters accumulated by `get_total_variants`. -/
structure VariantCounts where
  total_variants : Nat
  total_n : Nat
  total_iupac : Nat
  total_snv : Nat
  total_indel : Nat
deriving DecidableEq, Repr

/-- All counters start at zero. -/
def initCounts : VariantCounts := ⟨0, 0, 0, 0, 0⟩

/-- The variant-table header test: `re.match("^REGION\tPOS\tREF", line)`. -/
def isVarHeader (line : String) : Bool :=
  pyStartsWith line "REGION\tPOS\tREF"

/-- The `# count N and IUPAC codes seperately` tail of the loop body of
`get_total_variants`: bump `total_n`, else `total_iupac`, else nothing. -/
def classifyVariant (alt : String) (c : VariantCounts) : VariantCounts :=
  if is_variant_n alt then { c with total_n := c.total_n + 1 }
  else if is_variant_iupac alt then { c with total_iupac := c.total_iupac + 1 }
  else c

/-- One iteration of the `get_total_variants` loop on a single line.
`data = line.split("\t")`; `data[3]` out of range is an `IndexError`,
mapped to `FormatError`.  With `indel` set, a multi-character ALT counts as
an indel, a single-character ALT as an SNV, and a zero-length ALT is not
counted but still reaches classification; with `indel` unset, only a
single-character ALT is counted and classified, any other row hits
`continue`. -/
def processVariantLine (b : Bool) (c : VariantCounts) (line : String) :
    Except Err VariantCounts :=
  if isVarHeader line then .ok c
  else
    match (pySplitChar '\t' line)[3]? with
    | none => .error .FormatError
    | some alt =>
      if b then
        if 1 < pyLen alt then
          .ok (classifyVariant alt
            { c with total_variants := c.total_variants + 1,
                     total_indel := c.total_indel + 1 })
        else if pyLen alt = 1 then
          .ok (classifyVariant alt
            { c with total_variants := c.total_variants + 1,
                     total_snv := c.total_snv + 1 })
        else
          .ok (classifyVariant alt c)
      else
        if pyLen alt = 1 then
          .ok (classifyVariant alt
            { c with total_variants := c.total_variants + 1,
                     total_snv := c.total_snv + 1 })
        else
          .ok c

/-- The `get_total_variants` loop over the remaining lines. -/
def runVariants (b : Bool) : VariantCounts → List String → Except Err VariantCounts
  | c, [] => .ok c
  | c, line :: rest =>
    match processVariantLine b c line with
    | .ok c' => runVariants b c' rest
    | .error e => .error e

/-- Embeds `get_total_variants(file, indel)`: fold the per-line step over the file
from zeroed counters. -/
def get_total_variants (b : Bool) (lines : List String) : Except Err VariantCounts :=
  runVariants b initCounts lines

/-- The QC-file header test: `re.match("^sample_name", line)`. -/
def isQcHeader (line : String) : Bool :=
  pyStartsWith line "sample_name"

/-- The loop of `get_qc_data`: `data` starts unbound (`none`); every
non-header line rebinds it to `line.strip().split(",")`. -/
def qcScan : Option (List String) → List String → Option (List String)
  | acc, [] => acc
  | acc, line :: rest =>
    qcScan (if isQcHeader line then acc else some (pySplitChar ',' (pyStrip line))) rest

/-- The four fields projected by `get_qc_data`. -/
structure QcData where
  sample_name : String
  pct_n_bases : String
  pct_covered_bases : String
  qc_pass : String
deriving DecidableEq, Repr

/-- Embeds `get_qc_data(file)`: run the loop, then build the result dictionary from
`data[0]`, `data[1]`, `data[2]`, `data[6]`.  A file with no data line leaves
`data` unbound (Python `NameError`) and a short row raises `IndexError`;
both are the `FormatError` of the module's taxonomy. -/
def get_qc_data (lines : List String) : Except Err QcData :=
  match qcScan none lines with
  | none => .error .FormatError
  | some d =>
    match d[0]?, d[1]?, d[2]?, d[6]? with
    | some a, some b, some c, some q => .ok ⟨a, b, c, q⟩
    | _, _, _, _ => .error .FormatError

/-- The metadata header test: `re.match("^sample\tct", line.lower())`. -/
def isMetaHeader (line : String) : Bool :=
  pyStartsWith (pyLower line) "sample\tct"

/-- A Python dict of strings, modelled as an association list where
assignment appends and lookup takes the last binding. -/
def dictGet (d : List (String × String)) (k : String) : Option String :=
  List.lookup k d.reverse

/-- One iteration of the `import_ct_data` loop:
`tmp_data = line.strip().split("\t")`; `data[tmp_data[0]] = tmp_data[1]`.
A line with no second field raises `IndexError`, mapped to `FormatError`. -/
def importCtLine (d : List (String × String)) (line : String) :
    Except Err (List (String × String)) :=
  if isMetaHeader line then .ok d
  else
    let tmp := pySplitChar '\t' (pyStrip line)
    match tmp[0]?, tmp[1]? with
    | some k, some v => .ok (d ++ [(k, v)])
    | _, _ => .error .FormatError

/-- The `import_ct_data` loop over the remaining lines. -/
def runImportCt : List (String × String) → List String → Except Err (List (String × String))
  | d, [] => .ok d
  | d, line :: rest =>
    match importCtLine d line with
    | .ok d' => runImportCt d' rest
    | .error e => .error e

/-- Embeds `import_ct_data(file)`: build the sample → ct dictionary. -/
def import_ct_data (lines : List String) : Except Err (List (String × String)) :=
  runImportCt [] lines

/-- Python `int(s)` on a plain decimal literal: strip whitespace, optional
sign, at least one digit; anything else raises `ValueError`, mapped to
`FormatError` by the caller. -/
def pyInt (s : String) : Option Int :=
  match (pyStrip s).data with
  | [] => none
  | '+' :: rest => decDigits rest
  | '-' :: rest => (decDigits rest).map (fun n => -n)
  | cs => decDigits cs
where
  decDigits (cs : List Char) : Option Int :=
    if cs ≠ [] ∧ cs.all Char.isDigit then
      some (Int.ofNat (cs.foldl (fun a c => 10 * a + (c.toNat - '0'.toNat)) 0))
    else none

/-- The coverage-table header test:
`re.match("^reference_name\tstart\tend", line)`. -/
def isCovHeader (line : String) : Bool :=
  pyStartsWith line "reference_name\tstart\tend"

/-- One iteration of the `get_coverage_stats` loop:
`depth.append(int(line.strip().split("\t")[8th field]))`.  A missing column
7 (`IndexError`) or a non-integer depth (`ValueError`) is a `FormatError`. -/
def covLine (depth : List Int) (line : String) : Except Err (List Int) :=
  if isCovHeader line then .ok depth
  else
    match (pySplitChar '\t' (pyStrip line))[7]? with
    | none => .error .FormatError
    | some s =>
      match pyInt s with
      | none => .error .FormatError
      | some n => .ok (depth ++ [n])

/-- The `get_coverage_stats` loop over the remaining lines. -/
def runCov : List Int → List String → Except Err (List Int)
  | d, [] => .ok d
  | d, line :: rest =>
    match covLine d line with
    | .ok d' => runCov d' rest
    | .error e => .error e

/-- Insert into an ascending list, for sorting depths. -/
def insSorted (x : Int) : List Int → List Int
  | [] => [x]
  | y :: ys => if x ≤ y then x :: y :: ys else y :: insSorted x ys

/-- Ascending sort, as `statistics.median` sorts its data. -/
def pySorted (l : List Int) : List Int :=
  l.foldr insSorted []

/-- Embeds `statistics.mean` on integers: the exact value `sum / count`. -/
def listMean (l : List Int) : Rat :=
  ((l.foldl (· + ·) 0 : Int) : Rat) / (l.length : Rat)

/-- Embeds `statistics.median`: middle element of the sorted data, or the average
of the two middle elements when the count is even. -/
def listMedian (l : List Int) : Rat :=
  let s := pySorted l
  let n := s.length
  if n % 2 = 1 then ((s.getD (n / 2) 0 : Int) : Rat)
  else (((s.getD (n / 2 - 1) 0 : Int) : Rat) + ((s.getD (n / 2) 0 : Int) : Rat)) / 2

/-- Embeds `get_coverage_stats(file)`: collect the depth column, then return mean
and median.  `statistics.mean` on an empty list raises `StatisticsError`,
the `EmptyInputError` of the module's taxonomy. -/
def get_coverage_stats (lines : List String) : Except Err (Rat × Rat) :=
  match runCov [] lines with
  | .error e => .error e
  | .ok [] => .error .EmptyInputError
  | .ok (d :: ds) => .ok (listMean (d :: ds), listMedian (d :: ds))

/-- The per-sample summary dictionary assembled by `create_qc_summary_line`. -/
structure Summary where
  total_variants : Nat
  total_n : Nat
  total_iupac : Nat
  total_snv : Nat
  total_indel : Nat
  sample_name : String
  pct_n_bases : String
  pct_covered_bases : String
  qc_pass : String
  mean : Rat
  median : Rat
  ct : String
deriving DecidableEq, Repr

/-- Embeds `create_qc_summary_line(var_file, qc_file, cov_file, meta_file, indel)`:
merge the four partial results; the final `meta_data[summary['sample_name']]`
raises `KeyError` when the sample is absent, mapped to `MissingKeyError`. -/
def create_qc_summary_line (b : Bool) (var qc cov meta : List String) :
    Except Err Summary :=
  match get_total_variants b var with
  | .error e => .error e
  | .ok cnt =>
    match get_qc_data qc with
    | .error e => .error e
    | .ok q =>
      match get_coverage_stats cov with
      | .error e => .error e
      | .ok (m, md) =>
        match import_ct_data meta with
        | .error e => .error e
        | .ok metaData =>
          match dictGet metaData q.sample_name with
          | none => .error .MissingKeyError
          | some ct =>
            .ok ⟨cnt.total_variants, cnt.total_n, cnt.total_iupac,
                 cnt.total_snv, cnt.total_indel,
                 q.sample_name, q.pct_n_bases, q.pct_covered_bases, q.qc_pass,
                 m, md, ct⟩

/-- The summary-file header test of `collect_qc_summary_data`:
`re.match("^sample_name\tpct_n_bases\tpct_covered_bases", line)`. -/
def isSumHeader (line : String) : Bool :=
  pyStartsWith line "sample_name\tpct_n_bases\tpct_covered_bases"

/-- The inner loop of `collect_qc_summary_data` over one file: append
`line.rstrip()` for every non-header line. -/
def collectFile (data : List String) : List String → List String
  | [] => data
  | line :: rest =>
    collectFile (if isSumHeader line then data else data ++ [pyRstrip line]) rest

/-- Embeds `collect_qc_summary_data(path, pattern)` after the external glob: fold
the per-file collection over the enumerated files. -/
def collect_qc_summary_data (files : List (List String)) : List String :=
  files.foldl collectFile []

/-- The ALT field of a variant-table row: `data[3]` of `line.split("\t")`
(empty when the row is short, in which case the row is never counted). -/
def altField (line : String) : String :=
  match (pySplitChar '\t' line)[3]? with
  | some a => a
  | none => ""

/-- The sample/ct pair a metadata line contributes: none for a header line
or a line with fewer than two tab-delimited fields. -/
def metaEntry (line : String) : Option (String × String) :=
  if isMetaHeader line then none
  else
    match (pySplitChar '\t' (pyStrip line))[0]?, (pySplitChar '\t' (pyStrip line))[1]? with
    | some k, some v => some (k, v)
    | _, _ => none

/-- A metadata line either is a header or carries at least two fields. -/
def metaWf (line : String) : Prop :=
  isMetaHeader line = false → 2 ≤ (pySplitChar '\t' (pyStrip line)).length

instance (line : String) : Decidable (metaWf line) := by
  unfold metaWf
  infer_instance

/-- The ct value of the last data line bearing a given sample name, starting
from a prior binding `acc`. -/
def lastFrom (name : String) : Option String → List String → Option String
  | acc, [] => acc
  | acc, line :: rest =>
    lastFrom name
      (match metaEntry line with
       | some kv => if kv.1 = name then some kv.2 else acc
       | none => acc) rest

/-- The ct value of the last data line bearing a given sample name. -/
def lastCt (lines : List String) (name : String) : Option String :=
  lastFrom name none lines

/-- How many data lines bear a given sample name. -/
def metaKeyCount (lines : List String) (name : String) : Nat :=
  ((lines.filterMap metaEntry).filter (fun kv => kv.1 == name)).length

/-- The non-header lines of a QC file. -/
def dataLinesOf (lines : List String) : List String :=
  lines.filter (fun l => !(isQcHeader l))

/-- The comma fields of a stripped QC line. -/
def qcFields (line : String) : List String :=
  pySplitChar ',' (pyStrip line)

theorem classifyVariant_total_variants (a : String) (c : VariantCounts) :
    (classifyVariant a c).total_variants = c.total_variants := by
  unfold classifyVariant
  split
  · rfl
  · split <;> rfl

theorem classifyVariant_total_snv (a : String) (c : VariantCounts) :
    (classifyVariant a c).total_snv = c.total_snv := by
  unfold classifyVariant
  split
  · rfl
  · split <;> rfl

theorem classifyVariant_total_indel (a : String) (c : VariantCounts) :
    (classifyVariant a c).total_indel = c.total_indel := by
  unfold classifyVariant
  split
  · rfl
  · split <;> rfl

theorem processVariantLine_inv (b : Bool) (c : VariantCounts) (line : String)
    (c' : VariantCounts) (h : processVariantLine b c line = .ok c')
    (hc : c.total_variants = c.total_snv + c.total_indel) :
    c'.total_variants = c'.total_snv + c'.total_indel := by
  unfold processVariantLine at h
  split at h
  · cases h
    exact hc
  · split at h
    · cases h
    · split at h
      · split at h
        · cases h
          simp [classifyVariant_total_variants, classifyVariant_total_snv,
            classifyVariant_total_indel]
          omega
        · split at h
          · cases h
            simp [classifyVariant_total_variants, classifyVariant_total_snv,
              classifyVariant_total_indel]
            omega
          · cases h
            simp [classifyVariant_total_variants, classifyVariant_total_snv,
              classifyVariant_total_indel]
            omega
      · split at h
        · cases h
          simp [classifyVariant_total_variants, classifyVariant_total_snv,
            classifyVariant_total_indel]
          omega
        · cases h
          exact hc

theorem runVariants_inv (b : Bool) (lines : List String) :
    ∀ c c' : VariantCounts, runVariants b c lines = .ok c' →
    c.total_variants = c.total_snv + c.total_indel →
    c'.total_variants = c'.total_snv + c'.total_indel := by
  induction lines with
  | nil =>
    intro c c' h hc
    unfold runVariants at h
    cases h
    exact hc
  | cons line rest ih =>
    intro c c' h hc
    unfold runVariants at h
    split at h
    · exact ih _ c' h (processVariantLine_inv b c line _ (by assumption) hc)
    · cases h


/-- C1: for every run of `get_total_variants` with `indel=True`, the
returned counters satisfy `total_variants = total_snv + total_indel`. -/
theorem get_total_variants_split_invariant (lines : List String) (c : VariantCounts)
    (h : get_total_variants true lines = .ok c) :
    c.total_variants = c.total_snv + c.total_indel :=
  runVariants_inv true lines initCounts c h rfl

theorem get_total_variants_split_invariant_witness :
    get_total_variants true
        ["REGION\tPOS\tREF\tALT\tX\n", "r\t1\tA\tT\tx\n", "r\t2\tA\t+AT\tx\n",
         "r\t3\tA\tN\tx\n"] = .ok ⟨3, 1, 0, 2, 1⟩ ∧
      (VariantCounts.mk 3 1 0 2 1).total_variants
        = (VariantCounts.mk 3 1 0 2 1).total_snv
            + (VariantCounts.mk 3 1 0 2 1).total_indel :=
  ⟨by decide,
   get_total_variants_split_invariant
     ["REGION\tPOS\tREF\tALT\tX\n", "r\t1\tA\tT\tx\n", "r\t2\tA\t+AT\tx\n",
      "r\t3\tA\tN\tx\n"] ⟨3, 1, 0, 2, 1⟩ (by decide)⟩

/-- C2: on every counted row (one that bumps `total_variants`), the step of
`get_total_variants` bumps `total_n` exactly when the ALT contains an `N`
case-insensitively, otherwise bumps `total_iupac` exactly when the ALT
contains an IUPAC ambiguity code; it never bumps both, and bumps neither
when the ALT is unambiguous. -/
theorem processVariantLine_classification (b : Bool) (c : VariantCounts) (line : String)
    (c' : VariantCounts) (h : processVariantLine b c line = .ok c')
    (hcnt : c'.total_variants = c.total_variants + 1) :
    (c'.total_n = c.total_n + (if is_variant_n (altField line) then 1 else 0)) ∧
    (c'.total_iupac = c.total_iupac +
      (if is_variant_n (altField line) then 0
       else if is_variant_iupac (altField line) then 1 else 0)) ∧
    ¬(c'.total_n = c.total_n + 1 ∧ c'.total_iupac = c.total_iupac + 1) ∧
    (is_variant_n (altField line) = false → is_variant_iupac (altField line) = false →
      c'.total_n = c.total_n ∧ c'.total_iupac = c.total_iupac) := by
  unfold processVariantLine at h
  split at h
  · cases h
    exact absurd hcnt (by omega)
  · rename_i hnothdr
    split at h
    · cases h
    · rename_i alt heq
      have ha : altField line = alt := by simp [altField, heq]
      rw [ha]
      split at h
      · split at h
        · cases h
          rw [classifyVariant_total_variants] at hcnt
          by_cases hn : is_variant_n alt
          · simp [classifyVariant, hn]
          · by_cases hi : is_variant_iupac alt <;> simp [classifyVariant, hn, hi]
        · split at h
          · cases h
            by_cases hn : is_variant_n alt
            · simp [classifyVariant, hn]
            · by_cases hi : is_variant_iupac alt <;> simp [classifyVariant, hn, hi]
          · cases h
            rw [classifyVariant_total_variants] at hcnt
            exact absurd hcnt (by omega)
      · split at h
        · cases h
          by_cases hn : is_variant_n alt
          · simp [classifyVariant, hn]
          · by_cases hi : is_variant_iupac alt <;> simp [classifyVariant, hn, hi]
        · cases h
          exact absurd hcnt (by omega)

theorem processVariantLine_classification_witness :
    ((VariantCounts.mk 1 1 0 1 0).total_n = initCounts.total_n +
        (if is_variant_n (altField "r\t1\tA\tN\tx\n") then 1 else 0)) ∧
    ((VariantCounts.mk 1 1 0 1 0).total_iupac = initCounts.total_iupac +
        (if is_variant_n (altField "r\t1\tA\tN\tx\n") then 0
         else if is_variant_iupac (altField "r\t1\tA\tN\tx\n") then 1 else 0)) ∧
    ¬((VariantCounts.mk 1 1 0 1 0).total_n = initCounts.total_n + 1 ∧
      (VariantCounts.mk 1 1 0 1 0).total_iupac = initCounts.total_iupac + 1) ∧
    (is_variant_n (altField "r\t1\tA\tN\tx\n") = false →
      is_variant_iupac (altField "r\t1\tA\tN\tx\n") = false →
      (VariantCounts.mk 1 1 0 1 0).total_n = initCounts.total_n ∧
        (VariantCounts.mk 1 1 0 1 0).total_iupac = initCounts.total_iupac) :=
  processVariantLine_classification true initCounts "r\t1\tA\tN\tx\n"
    ⟨1, 1, 0, 1, 0⟩ (by decide) (by decide)

theorem processVariantLine_false_indel_fixed (c : VariantCounts) (line : String)
    (c' : VariantCounts) (h : processVariantLine false c line = .ok c') :
    c'.total_indel = c.total_indel := by
  unfold processVariantLine at h
  simp only [Bool.false_eq_true, if_false] at h
  split at h
  · cases h
    rfl
  · split at h
    · cases h
    · split at h
      · cases h
        rw [classifyVariant_total_indel]
      · cases h
        rfl

theorem runVariants_false_indel_fixed (lines : List String) :
    ∀ c c' : VariantCounts, runVariants false c lines = .ok c' →
    c'.total_indel = c.total_indel := by
  induction lines with
  | nil =>
    intro c c' h
    unfold runVariants at h
    cases h
    rfl
  | cons line rest ih =>
    intro c c' h
    unfold runVariants at h
    split at h
    · rw [ih _ c' h, processVariantLine_false_indel_fixed c line _ (by assumption)]
    · cases h

/-- C3: with `indel=False`, a multi-character-ALT row leaves every counter
unchanged (it is skipped before classification), `total_indel` stays `0`
over the whole run, and every single-character-ALT row bumps
`total_variants` and `total_snv` together. -/
theorem get_total_variants_no_indel_counting :
    (∀ (lines : List String) (c : VariantCounts),
      get_total_variants false lines = .ok c → c.total_indel = 0) ∧
    (∀ (c : VariantCounts) (line : String) (c' : VariantCounts) (alt : String),
      processVariantLine false c line = .ok c' →
      isVarHeader line = false →
      (pySplitChar '\t' line)[3]? = some alt →
      (1 < pyLen alt → c' = c) ∧
      (pyLen alt = 1 →
        c'.total_variants = c.total_variants + 1 ∧ c'.total_snv = c.total_snv + 1)) := by
  constructor
  · intro lines c h
    exact runVariants_false_indel_fixed lines initCounts c h
  · intro c line c' alt h hhdr heq
    constructor
    · intro hlen
      have hne : ¬ pyLen alt = 1 := by omega
      simp [processVariantLine, hhdr, heq, hne] at h
      exact h.symm
    · intro hlen
      simp [processVariantLine, hhdr, heq, hlen] at h
      rw [← h]
      rw [classifyVariant_total_variants, classifyVariant_total_snv]
      exact ⟨rfl, rfl⟩

theorem get_total_variants_no_indel_counting_witness :
    (VariantCounts.mk 1 0 0 1 0).total_indel = 0 ∧
      (initCounts : VariantCounts) = initCounts :=
  ⟨get_total_variants_no_indel_counting.1 ["r\t1\tA\t+AT\tx\n", "r\t2\tA\tT\tx\n"]
      ⟨1, 0, 0, 1, 0⟩ (by decide),
   (get_total_variants_no_indel_counting.2 initCounts "r\t1\tA\t+AT\tx\n" initCounts
      "+AT" (by decide) (by decide) (by decide)).1 (by decide)⟩

theorem processVariantLine_ok_of_enough_fields (b : Bool) (c : VariantCounts)
    (line : String)
    (h : isVarHeader line = true ∨ 4 ≤ (pySplitChar '\t' line).length) :
    ∃ c', processVariantLine b c line = .ok c' := by
  unfold processVariantLine
  cases hh : isVarHeader line
  · rcases h with h | h
    · cases (hh ▸ h : (false : Bool) = true)
    · have h3 : (pySplitChar '\t' line)[3]? =
          some ((pySplitChar '\t' line).get ⟨3, by omega⟩) :=
        List.getElem?_eq_getElem (by omega)
    
      simp only [h3, Bool.false_eq_true, if_false]
      split
      · split
        · exact ⟨_, rfl⟩
        · split
          · exact ⟨_, rfl⟩
          · exact ⟨_, rfl⟩
      · split
        · exact ⟨_, rfl⟩
        · exact ⟨_, rfl⟩
  · simp

theorem processVariantLine_short_row (b : Bool) (c : VariantCounts) (line : String)
    (hh : isVarHeader line = false)
    (hlen : (pySplitChar '\t' line).length < 4) :
    processVariantLine b c line = .error .FormatError := by
  have h3 : (pySplitChar '\t' line)[3]? = none := List.getElem?_eq_none (by omega)
  simp [processVariantLine, hh, h3]

/-- C4: a variant table containing a non-header row with fewer than four
tab-delimited fields makes `get_total_variants` fail with `FormatError`,
for either setting of the indel flag. -/
theorem get_total_variants_short_row_format_error (b : Bool) (lines : List String)
    (h : ∃ line ∈ lines, isVarHeader line = false ∧
      (pySplitChar '\t' line).length < 4) :
    get_total_variants b lines = .error .FormatError := by
  suffices hs : ∀ (ls : List String) (c : VariantCounts),
      (∃ line ∈ ls, isVarHeader line = false ∧ (pySplitChar '\t' line).length < 4) →
      runVariants b c ls = .error .FormatError from hs lines initCounts h
  intro ls
  induction ls with
  | nil =>
    intro c hc
    obtain ⟨line, hmem, _⟩ := hc
    cases hmem
  | cons line rest ih =>
    intro c hc
    by_cases hbad : isVarHeader line = false ∧ (pySplitChar '\t' line).length < 4
    · unfold runVariants
      rw [processVariantLine_short_row b c line hbad.1 hbad.2]
    · obtain ⟨c', hc'⟩ := processVariantLine_ok_of_enough_fields b c line (by
        cases hv : isVarHeader line
        · refine Or.inr ?_
          have hn4 : ¬ (pySplitChar '\t' line).length < 4 := fun hl => hbad ⟨hv, hl⟩
          omega
        · exact Or.inl rfl)
      unfold runVariants
      rw [hc']
      apply ih
      obtain ⟨l, hmem, hb⟩ := hc
      rcases List.mem_cons.mp hmem with rfl | hmem'
      · exact absurd hb hbad
      · exact ⟨l, hmem', hb⟩

theorem get_total_variants_short_row_format_error_witness :
    get_total_variants true ["REGION\tPOS\tREF\tALT\tX\n", "a\tb\n"]
      = .error .FormatError :=
  get_total_variants_short_row_format_error true
    ["REGION\tPOS\tREF\tALT\tX\n", "a\tb\n"] (by decide)

theorem runCov_all_header (lines : List String)
    (h : ∀ line ∈ lines, isCovHeader line = true) :
    ∀ d : List Int, runCov d lines = .ok d := by
  induction lines with
  | nil => intro d; rfl
  | cons line rest ih =>
    intro d
    have hl : covLine d line = .ok d := by
      simp [covLine, h line (List.mem_cons_self line rest)]
    unfold runCov
    rw [hl]
    exact ih (fun l hm => h l (List.mem_cons_of_mem line hm)) d

/-- C5: a coverage table whose every line is a header line (zero data rows)
makes `get_coverage_stats` fail with `EmptyInputError`; no mean or median is
returned. -/
theorem get_coverage_stats_empty_input_error (lines : List String)
    (h : ∀ line ∈ lines, isCovHeader line = true) :
    get_coverage_stats lines = .error .EmptyInputError := by
  unfold get_coverage_stats
  rw [runCov_all_header lines h []]

theorem get_coverage_stats_empty_input_error_witness :
    get_coverage_stats ["reference_name\tstart\tend\tx\n"] = .error .EmptyInputError :=
  get_coverage_stats_empty_input_error ["reference_name\tstart\tend\tx\n"] (by decide)

/-- C6: when the four per-sample inputs all parse but the QC file's
`sample_name` is absent from the metadata dictionary, the assembly fails
with `MissingKeyError` and produces no summary record. -/
theorem create_qc_summary_line_missing_key_error (b : Bool)
    (var qc cov meta : List String) (cnt : VariantCounts) (q : QcData)
    (m md : Rat) (dm : List (String × String))
    (h1 : get_total_variants b var = .ok cnt)
    (h2 : get_qc_data qc = .ok q)
    (h3 : get_coverage_stats cov = .ok (m, md))
    (h4 : import_ct_data meta = .ok dm)
    (h5 : dictGet dm q.sample_name = none) :
    create_qc_summary_line b var qc cov meta = .error .MissingKeyError := by
  simp only [create_qc_summary_line, h1, h2, h3, h4, h5]

theorem create_qc_summary_line_missing_key_error_witness :
    create_qc_summary_line true
        ["REGION\tPOS\tREF\tALT\tX\n", "r\t1\tA\tN\tx\n"]
        ["sample_name,x\n", "s1,1,2,3,4,5,pass\n"]
        ["reference_name\tstart\tend\n", "r\t1\t2\ta\tb\tc\td\t10\n"]
        ["sample\tct\n", "s2\t30\n"]
      = .error .MissingKeyError :=
  create_qc_summary_line_missing_key_error true
    ["REGION\tPOS\tREF\tALT\tX\n", "r\t1\tA\tN\tx\n"]
    ["sample_name,x\n", "s1,1,2,3,4,5,pass\n"]
    ["reference_name\tstart\tend\n", "r\t1\t2\ta\tb\tc\td\t10\n"]
    ["sample\tct\n", "s2\t30\n"]
    ⟨1, 1, 0, 1, 0⟩ ⟨"s1", "1", "2", "pass"⟩ 10 10 [("s2", "30")]
    (by decide) (by decide)
    (by
      have hrun : runCov []
          ["reference_name\tstart\tend\n", "r\t1\t2\ta\tb\tc\td\t10\n"]
          = .ok [10] := by decide
      unfold get_coverage_stats
      rw [hrun]
      norm_num [listMean, listMedian, pySorted, insSorted])
    (by decide) (by decide)

theorem qcScan_all_header (lines : List String)
    (h : ∀ line ∈ lines, isQcHeader line = true) :
    ∀ acc : Option (List String), qcScan acc lines = acc := by
  induction lines with
  | nil => intro acc; rfl
  | cons line rest ih =>
    intro acc
    unfold qcScan
    rw [h line (List.mem_cons_self line rest)]
    simp only [if_true]
    exact ih (fun l hm => h l (List.mem_cons_of_mem line hm)) acc

/-- C7: `get_qc_data` fails with `FormatError` when every line of the file
matches the header (zero data lines), and also when the data line it
projects has fewer than seven comma-delimited fields. -/
theorem get_qc_data_format_error (lines : List String) :
    ((∀ line ∈ lines, isQcHeader line = true) →
      get_qc_data lines = .error .FormatError) ∧
    (∀ d : List String, qcScan none lines = some d → d.length < 7 →
      get_qc_data lines = .error .FormatError) := by
  constructor
  · intro h
    unfold get_qc_data
    rw [qcScan_all_header lines h none]
  · intro d hd hlen
    unfold get_qc_data
    rw [hd]
    have h6 : d[6]? = none := List.getElem?_eq_none (by omega)
    cases h0 : d[0]? <;> cases h1 : d[1]? <;> cases h2 : d[2]? <;>
      simp [h0, h1, h2, h6]

theorem get_qc_data_format_error_witness :
    get_qc_data ["sample_name,x\n"] = .error .FormatError ∧
      get_qc_data ["sample_name\n", "a,b\n"] = .error .FormatError :=
  ⟨(get_qc_data_format_error ["sample_name,x\n"]).1 (by decide),
   (get_qc_data_format_error ["sample_name\n", "a,b\n"]).2 ["a", "b"]
     (by decide) (by decide)⟩







theorem dictGet_append (d : List (String × String)) (k v name : String) :
    dictGet (d ++ [(k, v)]) name = if k = name then some v else dictGet d name := by
  unfold dictGet
  rw [List.reverse_append]
  by_cases hk : k = name
  · subst hk
    simp [List.lookup]
  · have hb : (name == k) = false := by
      simp only [beq_eq_false_iff_ne]
      exact fun hn => hk hn.symm
    simp [List.lookup, hb, hk]

theorem runImportCt_lookup (name : String) (lines : List String)
    (hw : ∀ line ∈ lines, metaWf line) :
    ∀ d : List (String × String), ∃ d',
      runImportCt d lines = .ok d' ∧
        dictGet d' name = lastFrom name (dictGet d name) lines := by
  induction lines with
  | nil => intro d; exact ⟨d, rfl, rfl⟩
  | cons line rest ih =>
    intro d
    have hwrest : ∀ l ∈ rest, metaWf l := fun l hm => hw l (List.mem_cons_of_mem line hm)
    cases hh : isMetaHeader line
    · have hlen : 2 ≤ (pySplitChar '\t' (pyStrip line)).length :=
        hw line (List.mem_cons_self line rest) hh
      obtain ⟨k, tl, htl⟩ : ∃ k tl, pySplitChar '\t' (pyStrip line) = k :: tl := by
        cases hsp : pySplitChar '\t' (pyStrip line) with
        | nil => rw [hsp] at hlen; simp at hlen
        | cons a b => exact ⟨a, b, rfl⟩
      obtain ⟨v, tl2, htl2⟩ : ∃ v tl2, tl = v :: tl2 := by
        cases tl with
        | nil => rw [htl] at hlen; simp at hlen
        | cons a b => exact ⟨a, b, rfl⟩
      have hkv : pySplitChar '\t' (pyStrip line) = k :: v :: tl2 := by
        rw [htl, htl2]
      have e1 : importCtLine d line = .ok (d ++ [(k, v)]) := by
        simp [importCtLine, hh, hkv]
      have e2 : metaEntry line = some (k, v) := by
        simp [metaEntry, hh, hkv]
      obtain ⟨d', hd', hl⟩ := ih hwrest (d ++ [(k, v)])
      refine ⟨d', ?_, ?_⟩
      · unfold runImportCt
        rw [e1]
        exact hd'
      · unfold lastFrom
        rw [e2]
        rw [hl, dictGet_append]
    · have e1 : importCtLine d line = .ok d := by simp [importCtLine, hh]
      have e2 : metaEntry line = none := by simp [metaEntry, hh]
      obtain ⟨d', hd', hl⟩ := ih hwrest d
      refine ⟨d', ?_, ?_⟩
      · unfold runImportCt
        rw [e1]
        exact hd'
      · unfold lastFrom
        rw [e2]
        exact hl

/-- C8: a metadata table whose data lines are well-formed and that carries a
sample name on two or more data lines imports without error, and the
resulting dictionary binds that name to the ct of the last such line. -/
theorem import_ct_data_last_occurrence_wins (lines : List String) (name v : String)
    (hw : ∀ line ∈ lines, metaWf line)
    (hdup : 2 ≤ metaKeyCount lines name)
    (hlast : lastCt lines name = some v) :
    ∃ d, import_ct_data lines = .ok d ∧ dictGet d name = some v := by
  obtain ⟨d', hd', hl⟩ := runImportCt_lookup name lines hw []
  exact ⟨d', hd', by rw [hl]; exact hlast⟩

theorem import_ct_data_last_occurrence_wins_witness :
    ∃ d, import_ct_data ["sample\tct\n", "s1\t10\n", "s1\t20\n"] = .ok d ∧
      dictGet d "s1" = some "20" :=
  import_ct_data_last_occurrence_wins ["sample\tct\n", "s1\t10\n", "s1\t20\n"]
    "s1" "20" (by decide) (by decide) (by decide)

/-- C9: over two summary files of one header plus two data lines each,
`collect_qc_summary_data` returns exactly the four data lines, right-stripped,
header lines excluded, in file order then line order. -/
theorem collect_qc_summary_data_two_files (h1 a b h2 c d : String)
    (hh1 : isSumHeader h1 = true) (hh2 : isSumHeader h2 = true)
    (ha : isSumHeader a = false) (hb : isSumHeader b = false)
    (hc : isSumHeader c = false) (hd : isSumHeader d = false) :
    collect_qc_summary_data [[h1, a, b], [h2, c, d]]
        = [pyRstrip a, pyRstrip b, pyRstrip c, pyRstrip d] ∧
      (collect_qc_summary_data [[h1, a, b], [h2, c, d]]).length = 4 := by
  have e : collect_qc_summary_data [[h1, a, b], [h2, c, d]]
      = [pyRstrip a, pyRstrip b, pyRstrip c, pyRstrip d] := by
    simp [collect_qc_summary_data, collectFile, hh1, hh2, ha, hb, hc, hd]
  exact ⟨e, by rw [e]; rfl⟩

theorem collect_qc_summary_data_two_files_witness :
    collect_qc_summary_data
        [["sample_name\tpct_n_bases\tpct_covered_bases\tx\n", "a\t1\n", "b\t2\n"],
         ["sample_name\tpct_n_bases\tpct_covered_bases\tx\n", "c\t3\n", "d\t4\n"]]
        = [pyRstrip "a\t1\n", pyRstrip "b\t2\n", pyRstrip "c\t3\n", pyRstrip "d\t4\n"] ∧
      (collect_qc_summary_data
        [["sample_name\tpct_n_bases\tpct_covered_bases\tx\n", "a\t1\n", "b\t2\n"],
         ["sample_name\tpct_n_bases\tpct_covered_bases\tx\n", "c\t3\n", "d\t4\n"]]).length = 4 :=
  collect_qc_summary_data_two_files
    "sample_name\tpct_n_bases\tpct_covered_bases\tx\n" "a\t1\n" "b\t2\n"
    "sample_name\tpct_n_bases\tpct_covered_bases\tx\n" "c\t3\n" "d\t4\n"
    (by decide) (by decide) (by decide) (by decide) (by decide) (by decide)



theorem getLast?_cons_getD (x : String) (l : List String) :
    (x :: l).getLast? = some (l.getLast?.getD x) := by
  cases l with
  | nil => rfl
  | cons y ys =>
    rw [List.getLast?_cons_cons]
    cases hgl : (y :: ys).getLast? with
    | none => simp at hgl
    | some z => simp [hgl]

theorem qcScan_getLast (lines : List String) :
    ∀ acc : Option (List String),
      qcScan acc lines =
        match (dataLinesOf lines).getLast? with
        | some l => some (qcFields l)
        | none => acc := by
  induction lines with
  | nil => intro acc; rfl
  | cons x rest ih =>
    intro acc
    cases hx : isQcHeader x
    · have hdl : dataLinesOf (x :: rest) = x :: dataLinesOf rest := by
        simp [dataLinesOf, hx]
      unfold qcScan
      rw [hx]
      simp only [Bool.false_eq_true, if_false]
      rw [ih (some (pySplitChar ',' (pyStrip x)))]
      rw [hdl, getLast?_cons_getD]
      cases hgl : (dataLinesOf rest).getLast? <;> simp [hgl, qcFields]
    · have hdl : dataLinesOf (x :: rest) = dataLinesOf rest := by
        simp [dataLinesOf, hx]
      unfold qcScan
      rw [hx]
      simp only [if_true]
      rw [ih acc, hdl]

/-- C10: with two or more data lines in the QC file, `get_qc_data` succeeds
and returns the projection of the last data line; earlier data lines are
silently overwritten. -/
theorem get_qc_data_last_data_line (lines : List String) (last : String)
    (h2 : 2 ≤ (dataLinesOf lines).length)
    (hl : (dataLinesOf lines).getLast? = some last)
    (h7 : 7 ≤ (qcFields last).length) :
    get_qc_data lines =
      .ok ⟨(qcFields last).getD 0 "", (qcFields last).getD 1 "",
           (qcFields last).getD 2 "", (qcFields last).getD 6 ""⟩ := by
  have hscan : qcScan none lines = some (qcFields last) := by
    rw [qcScan_getLast lines none, hl]
  have g0 : (qcFields last)[0]? = some ((qcFields last).getD 0 "") := by
    rw [List.getD_eq_getElem?_getD]
    rw [List.getElem?_eq_getElem (show 0 < (qcFields last).length by omega)]
    rfl
  have g1 : (qcFields last)[1]? = some ((qcFields last).getD 1 "") := by
    rw [List.getD_eq_getElem?_getD]
    rw [List.getElem?_eq_getElem (show 1 < (qcFields last).length by omega)]
    rfl
  have g2 : (qcFields last)[2]? = some ((qcFields last).getD 2 "") := by
    rw [List.getD_eq_getElem?_getD]
    rw [List.getElem?_eq_getElem (show 2 < (qcFields last).length by omega)]
    rfl
  have g6 : (qcFields last)[6]? = some ((qcFields last).getD 6 "") := by
    rw [List.getD_eq_getElem?_getD]
    rw [List.getElem?_eq_getElem (show 6 < (qcFields last).length by omega)]
    rfl
  simp only [get_qc_data, hscan, g0, g1, g2, g6]

theorem get_qc_data_last_data_line_witness :
    get_qc_data ["sample_name\n", "a,b,c,d,e,f,g\n", "h,i,j,k,l,m,o\n"] =
      .ok ⟨(qcFields "h,i,j,k,l,m,o\n").getD 0 "", (qcFields "h,i,j,k,l,m,o\n").getD 1 "",
           (qcFields "h,i,j,k,l,m,o\n").getD 2 "", (qcFields "h,i,j,k,l,m,o\n").getD 6 ""⟩ :=
  get_qc_data_last_data_line ["sample_name\n", "a,b,c,d,e,f,g\n", "h,i,j,k,l,m,o\n"]
    "h,i,j,k,l,m,o\n" (by decide) (by decide) (by decide)
